import Mathlib

/- Verification development for the phonon boundary reflection process
   implemented in library/src/G4CMPPhononBoundaryProcess.cc.

   Vectors are modelled over the real numbers.  The CLHEP Hep3Vector
   operations used by the source (unit, setMag(1), dot, cross, rotate,
   azimAngle, perpPart) are modelled by their mathematical definitions.
   External collaborators, which the specification treats as opaque
   oracle capabilities, are modelled as record fields:
   the lattice inward predicate G4CMP::PhononVelocityIsInward, the solid
   geometry queries G4VSolid::SurfaceNormal and G4VSolid::DistanceToIn,
   the surface property tables SpecularReflProb / DiffuseReflProb /
   AnharmonicReflProb evaluated at the fixed per-call frequency, the
   uniform random draw G4UniformRand, and the successive results of the
   Lambertian direction primitive G4CMP::LambertReflection given as draw
   streams indexed by draw number.
   Geant4 native length units are used throughout: mm = 1, um = 1/1000.
   Local and global coordinate frames are taken to coincide (an
   unrotated, untranslated volume), so RotateToLocalDirection,
   RotateToGlobalDirection, GetLocalPosition and RotateToGlobalPosition
   are identities and are omitted. -/

noncomputable section

/-- Three component real vector, the model of G4ThreeVector. -/
@[ext] structure RV3 where
  x : ℝ
  y : ℝ
  z : ℝ

/-- Constructor shorthand for concrete vectors. -/
def rv3 (a b c : ℝ) : RV3 := ⟨a, b, c⟩

/-- Vector addition. -/
def addV (a b : RV3) : RV3 := ⟨a.x + b.x, a.y + b.y, a.z + b.z⟩

/-- Vector subtraction. -/
def subV (a b : RV3) : RV3 := ⟨a.x - b.x, a.y - b.y, a.z - b.z⟩

/-- Scalar multiplication. -/
def smulV (c : ℝ) (a : RV3) : RV3 := ⟨c * a.x, c * a.y, c * a.z⟩

/-- Vector negation. -/
def negV (a : RV3) : RV3 := smulV (-1) a

/-- Dot product. -/
def dotV (a b : RV3) : ℝ := a.x * b.x + a.y * b.y + a.z * b.z

/-- Cross product. -/
def crossV (a b : RV3) : RV3 :=
  ⟨a.y * b.z - a.z * b.y, a.z * b.x - a.x * b.z, a.x * b.y - a.y * b.x⟩

/-- Squared magnitude. -/
def normSq (a : RV3) : ℝ := dotV a a

/-- Magnitude (Hep3Vector::mag). -/
def magV (a : RV3) : ℝ := Real.sqrt (normSq a)

/-- The zero vector; also the value of a default constructed G4ThreeVector. -/
def zeroV : RV3 := ⟨0, 0, 0⟩

/-- Model of Hep3Vector::unit and equally of setMag(1): scale the vector to
    magnitude one.  On the zero vector the formula yields the zero vector,
    which is also what CLHEP returns there. -/
def unitV (a : RV3) : RV3 := smulV (1 / magV a) a

/-- Model of Hep3Vector::rotate(axis, delta): Rodrigues rotation of the
    receiver about the normalised axis by the angle delta. -/
def rotateV (v a : RV3) (d : ℝ) : RV3 :=
  let u := unitV a
  addV (addV (smulV (Real.cos d) v) (smulV (Real.sin d) (crossV u v)))
    (smulV ((1 - Real.cos d) * dotV v u) u)

/-- Component of v perpendicular to the direction r (Hep3Vector::perpPart). -/
def perpPart (v r : RV3) : RV3 :=
  let u := unitV r
  subV v (smulV (dotV v u) u)

/-- Model of Hep3Vector::azimAngle(b, ref): the signed angle, measured about
    ref, from the projection of the receiver onto the plane orthogonal to
    ref to the projection of b, the sign given by the orientation of the
    cross product of the two projections against ref. -/
def azimAngle (a b ref : RV3) : ℝ :=
  let pa := perpPart a ref
  let pb := perpPart b ref
  let ang := Real.arccos (dotV pa pb / (magV pa * magV pb))
  if dotV (crossV pa pb) (unitV ref) < 0 then -ang else ang

/-- Reflection branch chosen by the cumulative probability bands of
    DoReflection. -/
inductive BranchSel
  | decay
  | specular
  | diffuse
deriving DecidableEq

/-- Reflection type recorded in the failure diagnostic (the refltype string
    of the source). -/
inductive Refl
  | specular
  | diffuse
deriving DecidableEq

/-- Result of one DoReflection call as seen by the transport framework:
    two daughters produced by anharmonic decay, an accepted reflected
    wavevector direction, or a killed track together with the reflection
    type named in the diagnostic and the phonon mode at the time of death. -/
inductive Outcome
  | decayed (v1 v2 : RV3)
  | reflected (t : Refl) (dir : RV3)
  | killed (t : Refl) (mode : ℤ)

/-- The external collaborators of one boundary collision, modelled as opaque
    oracle capabilities exactly as the specification treats them.
    specProb, diffuseProb and anharmonicProb are the values of the surface
    property tables at the per-call frequency; rand is the value of
    G4UniformRand(); inward is G4CMP::PhononVelocityIsInward applied to the
    lattice, taking mode, wavevector direction and surface normal; draws1
    and draws2 are the successive values produced by
    G4CMP::LambertReflection for the first and second sampler call of a
    branch; surfaceNormal and distanceToIn are the solid geometry queries
    G4VSolid::SurfaceNormal and G4VSolid::DistanceToIn; memberKPerpV is the
    value of the class data member named kPerpV that GetEdgePosition reads:
    no statement of this translation unit ever assigns it, so a default
    constructed object carries the zero vector there. -/
structure BoundaryEnv where
  specProb : ℝ
  diffuseProb : ℝ
  anharmonicProb : ℝ
  rand : ℝ
  inward : ℤ → RV3 → RV3 → Bool
  draws1 : ℕ → RV3
  draws2 : ℕ → RV3
  surfaceNormal : RV3 → RV3
  distanceToIn : RV3 → RV3 → ℝ
  memberKPerpV : RV3

/-- The cumulative probability band selection of DoReflection
    (lines 197 and 212 of the source): a draw below the downconversion
    band gives decay, otherwise below downconversion plus specular gives
    specular, otherwise diffuse. -/
def selectBranch (down spec r : ℝ) : BranchSel :=
  if r < down then .decay
  else if r < down + spec then .specular
  else .diffuse

/-- The do while loop of GetLambertianVector (lines 414-418).  The source
    counts condition evaluations with nTries and stops once
    nTries++ < maxTries fails; here fuel = maxTries - nTries, so the
    initial call passes fuel = 1000.  With fuel exhausted the condition is
    false by its first conjunct, so one further draw is made and returned
    without an inward check, exactly as the short circuit evaluation of
    the source does.  The second component counts the draws performed. -/
def lambertRun (draw : ℕ → RV3) (accept : RV3 → Bool) : ℕ → ℕ → RV3 × ℕ
  | n, 0 => (draw n, 1)
  | n, fuel + 1 =>
    let v := draw n
    if accept v then (v, 1)
    else
      let r := lambertRun draw accept (n + 1) fuel
      (r.1, r.2 + 1)

/-- GetLambertianVector (lines 409-421): rejection sampling of Lambertian
    draws against the lattice inward predicate. -/
def GetLambertianVector (O : BoundaryEnv) (draw : ℕ → RV3) (surfNorm : RV3)
    (mode : ℤ) : RV3 :=
  (lambertRun draw (fun v => O.inward mode v surfNorm) 0 1000).1

/-- Intermediate point of GetEdgePosition after the 1 mm inward step along
    the current normal and the pull back along kTan (lines 429-441), before
    the final 1 mm outward restoration.  As in the source, kPerp is
    computed from the local decomposition but the pull back direction kTan
    is formed by subtracting the data member kPerpV, not the local kPerp. -/
def GetEdgePullback (O : BoundaryEnv) (stepLocalPos waveVector : RV3) : RV3 :=
  let currNorm := O.surfaceNormal stepLocalPos
  let kPerpMag := dotV waveVector currNorm
  let kPerp := smulV kPerpMag currNorm
  let kTan := subV waveVector O.memberKPerpV
  let edgePos := subV stepLocalPos (smulV 1 currNorm)
  let surfAdjust := O.distanceToIn edgePos (negV kTan)
  subV edgePos (smulV surfAdjust kTan)

/-- GetEdgePosition (lines 426-445): the pull back point restored 1 mm
    outward along the current normal. -/
def GetEdgePosition (O : BoundaryEnv) (stepLocalPos waveVector : RV3) : RV3 :=
  addV (GetEdgePullback O stepLocalPos waveVector)
    (smulV 1 (O.surfaceNormal stepLocalPos))

/-- GetReflectionOnEdge (lines 450-464): evaluate the normal of the
    bordering surface 1 mm inward along the current normal and reflect the
    wavevector against it, renormalised by setMag(1). -/
def GetReflectionOnEdge (O : BoundaryEnv) (stepLocalPos waveVector : RV3) : RV3 :=
  let currNorm := O.surfaceNormal stepLocalPos
  let edgePos := subV stepLocalPos (smulV 1 currNorm)
  let newNorm := O.surfaceNormal edgePos
  let kPerp := dotV waveVector newNorm
  unitV (subV waveVector (smulV (2 * kPerp) newNorm))

/-- Mutable state of the correction loop of GetReflectedVector: the current
    local position, the tangential component, the perpendicular component
    vector, the fixed perpendicular magnitude, the current surface normal
    and the current candidate reflected wavevector direction. -/
structure SolverState where
  pos : RV3
  kTan : RV3
  kPerpV : RV3
  kPerpMag : ℝ
  newNorm : RV3
  dKdir : RV3

/-- One iteration of the correction loop of GetReflectedVector
    (lines 319-356), with the edge reflection routine a parameter so that
    its influence on the result can be stated.  The pair posDir mirrors the
    two assignments of the edge branch: the relocated position and the edge
    reflected direction.  As in the source, the direction assigned in the
    edge branch is overwritten by the recombination kTan + kPerpV at the
    end of the iteration before anything reads it. -/
def loopBodyGen (edgeRefl : BoundaryEnv → RV3 → RV3 → RV3) (O : BoundaryEnv)
    (s : SolverState) : SolverState :=
  let pos1 := addV s.pos (smulV (1 / 1000) (unitV s.kTan))
  let oldNorm := s.newNorm
  let newNorm := O.surfaceNormal pos1
  let surfAdjust := O.distanceToIn pos1 (negV newNorm)
  let posDir :=
    if surfAdjust > 1 then
      let p := GetEdgePosition O pos1 s.dKdir
      let dEdge := edgeRefl O p s.dKdir
      (p, dEdge)
    else
      (subV pos1 (smulV surfAdjust newNorm), s.dKdir)
  let axis := unitV (crossV s.kPerpV s.kTan)
  let kPerpV := smulV s.kPerpMag newNorm
  let phi := azimAngle oldNorm newNorm axis
  let kTan := rotateV s.kTan axis phi
  let dK := addV kTan kPerpV
  ⟨posDir.1, kTan, kPerpV, s.kPerpMag, newNorm, dK⟩

/-- The loop body of GetReflectedVector with the edge reflection of the
    source. -/
def loopBody (O : BoundaryEnv) (s : SolverState) : SolverState :=
  loopBodyGen GetReflectionOnEdge O s

/-- The while loop of GetReflectedVector (lines 316-382).  The source
    condition is not inward conjoined with nAttempts++ < maxAttempts, with
    the counter incremented only when the first conjunct holds; here
    fuel = maxAttempts - nAttempts, so the initial call passes fuel = 1000.
    The second component counts the body executions. -/
def reflLoop {σ : Type} (inw : σ → Bool) (body : σ → σ) : σ → ℕ → σ × ℕ
  | s, 0 => (s, 0)
  | s, fuel + 1 =>
    if inw s then (s, 0)
    else
      let r := reflLoop inw body (body s) fuel
      (r.1, r.2 + 1)

/-- Step 1 of GetReflectedVector (lines 266-268): normalise the incident
    wavevector, flip twice its projection on the outward normal, and
    renormalise with setMag(1). -/
def stepOneReflect (waveVector surfNorm : RV3) : RV3 :=
  let u := unitV waveVector
  let kPerp := dotV u surfNorm
  unitV (subV u (smulV (2 * kPerp) surfNorm))

/-- GetReflectedVector (lines 261-404): the naive law of reflection,
    returned at once when the lattice reports it inward, otherwise the
    surface walk correction loop started from the decomposition of the
    naive result against the original normal.  Only the final candidate
    direction is returned; the walked position is a local variable that
    the caller never receives. -/
def GetReflectedVector (O : BoundaryEnv) (waveVector surfNorm : RV3)
    (mode : ℤ) (surfacePoint : RV3) : RV3 :=
  let d0 := stepOneReflect waveVector surfNorm
  if O.inward mode d0 surfNorm then d0
  else
    let newNorm := surfNorm
    let kPerpMag := dotV d0 newNorm
    let kPerpV := smulV kPerpMag newNorm
    let kTan := subV d0 kPerpV
    let s0 : SolverState := ⟨surfacePoint, kTan, kPerpV, kPerpMag, newNorm, d0⟩
    ((reflLoop (fun s => O.inward mode s.dKdir s.newNorm) (loopBody O) s0 1000).1).dKdir

/-- DoReflection (lines 143-256): normalise the three surface probabilities
    by their sum with no check on the sum, select the branch by the
    cumulative bands, dispatch, and for the specular and diffuse branches
    run one final inward check against the original collision normal,
    killing the track with a diagnostic on failure.  The decay branch
    assigns each daughter an independent Lambertian draw and returns
    before that final check. -/
def DoReflection (O : BoundaryEnv) (waveVector surfNorm : RV3) (mode : ℤ)
    (surfacePoint : RV3) : Outcome :=
  let nrm := O.specProb + O.diffuseProb + O.anharmonicProb
  let spec := O.specProb / nrm
  let diff := O.diffuseProb / nrm
  let down := O.anharmonicProb / nrm
  match selectBranch down spec O.rand with
  | .decay =>
    Outcome.decayed (GetLambertianVector O O.draws1 surfNorm mode)
      (GetLambertianVector O O.draws2 surfNorm mode)
  | .specular =>
    let d := GetReflectedVector O waveVector surfNorm mode surfacePoint
    if O.inward mode d surfNorm then Outcome.reflected .specular d
    else Outcome.killed .specular mode
  | .diffuse =>
    let d := GetLambertianVector O O.draws1 surfNorm mode
    if O.inward mode d surfNorm then Outcome.reflected .diffuse d
    else Outcome.killed .diffuse mode

/-- AbsorbTrack (lines 127-140): the base utility test conjoined with the
    perpendicular wavevector threshold test.  The base class
    G4CMPBoundaryUtils::AbsorbTrack is not part of this translation unit
    and enters as an opaque boolean. -/
def AbsorbTrack (baseAbsorb : Bool) (k surfNorm : RV3) (absMinK : ℝ) : Bool :=
  baseAbsorb && decide (|dotV k surfNorm| > absMinK)

/-- Action applied to the track by the boundary dispatcher: absorption, or
    the outcome of the reflection selector. -/
inductive BoundaryAction
  | absorbed
  | viaSelector (o : Outcome)

/-- Modelled from the spec: the boundary dispatcher
    G4CMPBoundaryUtils::ApplyBoundaryAction is not under src; the
    specification states that when the absorption test holds the track is
    absorbed and the outcome selector is never invoked for that collision,
    and that otherwise the selector decides the outcome. -/
def ApplyBoundaryAction (absorb : Bool) (O : BoundaryEnv)
    (waveVector surfNorm : RV3) (mode : ℤ) (surfacePoint : RV3) :
    BoundaryAction :=
  if absorb then .absorbed
  else .viaSelector (DoReflection O waveVector surfNorm mode surfacePoint)

/-- Helper: a sampler run whose checked draws are all rejected makes one
    draw per unit of fuel plus the final unchecked draw, and returns that
    final draw. -/
theorem lambertRun_exhaust (draw : ℕ → RV3) (accept : RV3 → Bool)
    (n fuel : ℕ) (h : ∀ i, i < fuel → accept (draw (n + i)) = false) :
    lambertRun draw accept n fuel = (draw (n + fuel), fuel + 1) := by
  induction fuel generalizing n with
  | zero => simp [lambertRun]
  | succ f ih =>
    have h0 : accept (draw n) = false := by simpa using h 0 (Nat.succ_pos f)
    have hrec : lambertRun draw accept (n + 1) f = (draw (n + 1 + f), f + 1) := by
      refine ih (n + 1) ?_
      intro i hi
      have := h (i + 1) (by omega)
      simpa [show n + (i + 1) = n + 1 + i by omega] using this
    simp [lambertRun, h0, hrec, show n + 1 + f = n + (f + 1) by omega]

/-- Helper: a sampler run returns the first checked draw that the inward
    predicate accepts, having made that many draws. -/
theorem lambertRun_firstPass (draw : ℕ → RV3) (accept : RV3 → Bool)
    (fuel : ℕ) :
    ∀ (n j : ℕ), j < fuel → (∀ i, i < j → accept (draw (n + i)) = false) →
      accept (draw (n + j)) = true →
      lambertRun draw accept n fuel = (draw (n + j), j + 1) := by
  induction fuel with
  | zero => omega
  | succ f ih =>
    intro n j hj hpre hacc
    cases j with
    | zero =>
      have h0 : accept (draw n) = true := by simpa using hacc
      cases f with
      | zero => simp [lambertRun, h0]
      | succ f2 => simp [lambertRun, h0]
    | succ j0 =>
      have h0 : accept (draw n) = false := by simpa using hpre 0 (Nat.succ_pos _)
      have hrec : lambertRun draw accept (n + 1) f = (draw (n + 1 + j0), j0 + 1) := by
        refine ih (n + 1) j0 (by omega) ?_ ?_
        · intro i hi
          have := hpre (i + 1) (by omega)
          simpa [show n + (i + 1) = n + 1 + i by omega] using this
        · simpa [show n + (j0 + 1) = n + 1 + j0 by omega] using hacc
      simp [lambertRun, h0, hrec, show n + 1 + j0 = n + (j0 + 1) by omega]

/-- Helper: the number of draws a sampler run makes never exceeds the fuel
    plus the one final unchecked draw. -/
theorem lambertRun_count (draw : ℕ → RV3) (accept : RV3 → Bool)
    (n fuel : ℕ) : (lambertRun draw accept n fuel).2 ≤ fuel + 1 := by
  induction fuel generalizing n with
  | zero => simp [lambertRun]
  | succ f ih =>
    by_cases hb : accept (draw n) = true
    · simp [lambertRun, hb]
    · have hb2 : accept (draw n) = false := by
        cases hx : accept (draw n)
        · rfl
        · exact absurd hx hb
      have := ih (n + 1)
      simp only [lambertRun, hb2, Bool.false_eq_true, if_false]
      omega

/-- Helper: the correction loop executes its body at most fuel times. -/
theorem reflLoop_count {σ : Type} (inw : σ → Bool) (body : σ → σ)
    (s : σ) (fuel : ℕ) : (reflLoop inw body s fuel).2 ≤ fuel := by
  induction fuel generalizing s with
  | zero => simp [reflLoop]
  | succ f ih =>
    by_cases hb : inw s = true
    · simp [reflLoop, hb]
    · have hb2 : inw s = false := by
        cases hx : inw s
        · rfl
        · exact absurd hx hb
      have := ih (body s)
      simp only [reflLoop, hb2, Bool.false_eq_true, if_false]
      omega

/-- Claim C3: for every probability triple with nonnegative entries and
    positive sum, the selector evaluates cumulative bands in the fixed
    order decay, then specular, then diffuse; the normalised probabilities
    sum to one, the two band boundaries lie within the unit interval, and
    the three bands characterise the outcome exactly, so they partition
    the unit interval of draws without gaps or overlaps.  Moreover, for
    the un-normalised triple specular 0.3, diffuse 0.3, decay 0 and the
    draw 0.4 the specular branch is selected. -/
theorem c3_selection_bands :
    (∀ s d c r : ℝ, 0 ≤ s → 0 ≤ d → 0 ≤ c → 0 < s + d + c → 0 ≤ r → r < 1 →
      c / (s + d + c) + s / (s + d + c) + d / (s + d + c) = 1 ∧
      (0 ≤ c / (s + d + c) ∧ c / (s + d + c) + s / (s + d + c) ≤ 1) ∧
      (selectBranch (c / (s + d + c)) (s / (s + d + c)) r = .decay ↔
        r < c / (s + d + c)) ∧
      (selectBranch (c / (s + d + c)) (s / (s + d + c)) r = .specular ↔
        (c / (s + d + c) ≤ r ∧ r < c / (s + d + c) + s / (s + d + c))) ∧
      (selectBranch (c / (s + d + c)) (s / (s + d + c)) r = .diffuse ↔
        c / (s + d + c) + s / (s + d + c) ≤ r)) ∧
    selectBranch ((0 : ℝ) / (3 / 10 + 3 / 10 + 0))
      ((3 / 10) / ((3 : ℝ) / 10 + 3 / 10 + 0)) (4 / 10) = .specular := by
  constructor
  · intro s d c r hs hd hc hsum hr0 hr1
    have hsum1 : c / (s + d + c) + s / (s + d + c) + d / (s + d + c) = 1 := by
      field_simp
      ring
    have hd0 : 0 ≤ d / (s + d + c) := div_nonneg hd (le_of_lt hsum)
    have hc0 : 0 ≤ c / (s + d + c) := div_nonneg hc (le_of_lt hsum)
    have hcs1 : c / (s + d + c) + s / (s + d + c) ≤ 1 := by linarith
    refine ⟨hsum1, ⟨hc0, hcs1⟩, ?_, ?_, ?_⟩
    · unfold selectBranch
      split_ifs with ha hb
      · simpa using ha
      · simp only [reduceCtorEq, false_iff]
        exact ha
      · simp only [reduceCtorEq, false_iff]
        exact ha
    · unfold selectBranch
      split_ifs with ha hb
      · simp only [reduceCtorEq, false_iff]
        rintro ⟨h1, _⟩
        exact absurd ha (not_lt.mpr h1)
      · exact ⟨fun _ => ⟨le_of_not_lt ha, hb⟩, fun _ => rfl⟩
      · simp only [reduceCtorEq, false_iff]
        rintro ⟨_, h2⟩
        exact hb h2
    · unfold selectBranch
      split_ifs with ha hb
      · simp only [reduceCtorEq, false_iff]
        intro hcon
        have : r < c / (s + d + c) + s / (s + d + c) := by
          have := div_nonneg hs (le_of_lt hsum)
          linarith
        exact absurd hcon (not_le.mpr this)
      · simp only [reduceCtorEq, false_iff]
        exact fun hcon => absurd hb (not_lt.mpr hcon)
      · simpa using le_of_not_lt hb
  · unfold selectBranch
    rw [if_neg (by norm_num), if_pos (by norm_num)]

/-- Witness for C3: the general band characterisation applied to the
    concrete triple of the claim with the draw 0.4, every hypothesis
    discharged numerically. -/
theorem c3_selection_bands_witness :
    selectBranch ((0 : ℝ) / (3 / 10 + 3 / 10 + 0))
        ((3 / 10) / ((3 : ℝ) / 10 + 3 / 10 + 0)) (4 / 10) = .specular ↔
      ((0 : ℝ) / (3 / 10 + 3 / 10 + 0) ≤ 4 / 10 ∧
        (4 / 10 : ℝ) < 0 / (3 / 10 + 3 / 10 + 0) +
          (3 / 10) / (3 / 10 + 3 / 10 + 0)) :=
  (c3_selection_bands.1 (3 / 10) (3 / 10) 0 (4 / 10) (by norm_num)
    (by norm_num) (by norm_num) (by norm_num) (by norm_num)
    (by norm_num)).2.2.2.1

/-- Environment of claim C1: all three surface probabilities are zero, the
    uniform draw is one half, the lattice oracle accepts every direction,
    and the Lambert primitive always proposes the direction (0,0,1).
    Fields in order: specProb, diffuseProb, anharmonicProb, rand, inward,
    draws1, draws2, surfaceNormal, distanceToIn, memberKPerpV. -/
def envC1 : BoundaryEnv :=
  ⟨0, 0, 0, 1 / 2, fun _ _ _ => true, fun _ => rv3 0 0 1, fun _ => rv3 0 0 1,
    fun _ => rv3 0 0 1, fun _ _ => 0, zeroV⟩

/-- Claim C1: the source performs no check on the probability sum before
    dividing (lines 180 to 184).  With all three probabilities zero the
    sum is zero, the three divisions proceed, both band comparisons are
    false against the resulting values, and the selector silently takes
    the diffuse branch and returns an ordinary reflection outcome instead
    of raising a configuration error.  In IEEE arithmetic the quotients
    are NaN and every comparison against them is likewise false, so the
    real model and the floating point execution take the same branch. -/
theorem c1_no_sum_check :
    DoReflection envC1 (rv3 0 0 1) (rv3 0 0 1) 0 zeroV =
      Outcome.reflected .diffuse (rv3 0 0 1) := by
  have hlam : GetLambertianVector envC1 envC1.draws1 (rv3 0 0 1) 0 =
      rv3 0 0 1 := by
    unfold GetLambertianVector
    rw [lambertRun_firstPass envC1.draws1
      (fun v => envC1.inward 0 v (rv3 0 0 1)) 1000 0 0 (by omega)
      (fun i hi => absurd hi (Nat.not_lt_zero i)) rfl]
    rfl
  have hsel : selectBranch
      (envC1.anharmonicProb /
        (envC1.specProb + envC1.diffuseProb + envC1.anharmonicProb))
      (envC1.specProb /
        (envC1.specProb + envC1.diffuseProb + envC1.anharmonicProb))
      envC1.rand = .diffuse := by
    show selectBranch ((0 : ℝ) / (0 + 0 + 0)) ((0 : ℝ) / (0 + 0 + 0))
      (1 / 2) = .diffuse
    unfold selectBranch
    rw [if_neg (by norm_num), if_neg (by norm_num)]
  unfold DoReflection
  simp only [hsel, hlam]
  simp [envC1]

/-- Claim C9 counterexample: with the base utility test false and a
    perpendicular wavevector component of magnitude 5 against a threshold
    of 1, the absorption test of the source is false although the claimed
    characterisation, absorption exactly when the perpendicular magnitude
    exceeds the threshold, demands true. -/
theorem c9_counterexample :
    AbsorbTrack false (rv3 0 0 5) (rv3 0 0 1) 1 = false ∧
      1 < |dotV (rv3 0 0 5) (rv3 0 0 1)| := by
  constructor
  · simp [AbsorbTrack]
  · norm_num [dotV, rv3]

/-- Claim C9 amended: the absorption test of the source holds exactly when
    the base utility test holds and the magnitude of the wavevector
    component along the surface normal exceeds the threshold; and whenever
    the absorption test holds the dispatcher resolves to absorption with a
    result independent of every selector input, so the outcome selector is
    never consulted. -/
theorem c9_amended :
    (∀ (b : Bool) (k n : RV3) (t : ℝ),
      AbsorbTrack b k n t = true ↔ (b = true ∧ t < |dotV k n|)) ∧
    (∀ (O Oa : BoundaryEnv) (wv wva n na : RV3) (m ma : ℤ) (p pa : RV3),
      ApplyBoundaryAction true O wv n m p = .absorbed ∧
      ApplyBoundaryAction true O wv n m p =
        ApplyBoundaryAction true Oa wva na ma pa) := by
  constructor
  · intro b k n t
    simp [AbsorbTrack, Bool.and_eq_true, decide_eq_true_eq, gt_iff_lt]
  · intro O Oa wv wva n na m ma p pa
    constructor
    · simp [ApplyBoundaryAction]
    · simp [ApplyBoundaryAction]

/-- Claim C4 counterexample: with a lattice oracle that rejects every draw,
    the diffuse sampler loop performs 1001 draws, one more than the
    claimed bound of 1000: the do while loop checks its counter only after
    the body has run, so a final unchecked draw follows the 1000 rejected
    ones. -/
theorem c4_counterexample :
    (lambertRun (fun _ => rv3 0 0 1) (fun _ => false) 0 1000).2 = 1001 := by
  rw [lambertRun_exhaust (fun _ => rv3 0 0 1) (fun _ => false) 0 1000
    (fun i _ => rfl)]

/-- Claim C4 amended: the correction loop of the specular solver executes
    its body at most 1000 times for any oracle, body and start state, and
    the diffuse sampler performs at most 1001 draws for any draw stream
    and inward predicate; the common retry bound is the only mechanism
    limiting the work of either loop. -/
theorem c4_amended_bounds :
    (∀ (inw : SolverState → Bool) (body : SolverState → SolverState)
      (s : SolverState), (reflLoop inw body s 1000).2 ≤ 1000) ∧
    (∀ (draw : ℕ → RV3) (accept : RV3 → Bool),
      (lambertRun draw accept 0 1000).2 ≤ 1001) :=
  ⟨fun inw body s => reflLoop_count inw body s 1000,
    fun draw accept => lambertRun_count draw accept 0 1000⟩

/-- Environment of claim C8: the lattice oracle rejects every direction and
    the Lambert primitive returns pairwise distinct draws, the i-th draw
    carrying i in its first component.  Fields in order: specProb,
    diffuseProb, anharmonicProb, rand, inward, draws1, draws2,
    surfaceNormal, distanceToIn, memberKPerpV. -/
def envC8 : BoundaryEnv :=
  ⟨0, 1, 0, 1 / 2, fun _ _ _ => false, fun i => rv3 i 0 0, fun i => rv3 i 0 0,
    fun _ => rv3 0 0 1, fun _ _ => 0, zeroV⟩

/-- Claim C8 counterexample: when no draw passes, the sampler does not
    return the last of the 1000 checked draws; it makes a 1001st,
    unchecked draw and returns that, so the returned vector is not among
    the 1000 draws of the claimed budget. -/
theorem c8_counterexample :
    GetLambertianVector envC8 envC8.draws1 (rv3 0 0 1) 0 = rv3 1000 0 0 ∧
      (rv3 1000 0 0 : RV3) ≠ rv3 999 0 0 := by
  constructor
  · unfold GetLambertianVector
    rw [lambertRun_exhaust envC8.draws1
      (fun v => envC8.inward 0 v (rv3 0 0 1)) 0 1000 (fun i _ => rfl)]
    simp [envC8]
  · intro h
    have hx := congrArg RV3.x h
    simp only [rv3] at hx
    norm_num at hx

/-- Claim C8 amended: the sampler returns the first draw among the 1000
    checked ones that the inward predicate accepts; if all 1000 checked
    draws are rejected it performs one further, unchecked draw, the
    1001st, and returns it unchanged without signalling failure. -/
theorem c8_amended :
    (∀ (O : BoundaryEnv) (draw : ℕ → RV3) (n : RV3) (m : ℤ) (j : ℕ),
      j < 1000 → (∀ i, i < j → O.inward m (draw i) n = false) →
      O.inward m (draw j) n = true →
      GetLambertianVector O draw n m = draw j) ∧
    (∀ (O : BoundaryEnv) (draw : ℕ → RV3) (n : RV3) (m : ℤ),
      (∀ i, i < 1000 → O.inward m (draw i) n = false) →
      GetLambertianVector O draw n m = draw 1000 ∧
      (lambertRun draw (fun v => O.inward m v n) 0 1000).2 = 1001) := by
  constructor
  · intro O draw n m j hj hpre hacc
    unfold GetLambertianVector
    have := lambertRun_firstPass draw (fun v => O.inward m v n) 1000 0 j hj
      (fun i hi => by simpa using hpre i hi) (by simpa using hacc)
    rw [this]
    simp
  · intro O draw n m hall
    have := lambertRun_exhaust draw (fun v => O.inward m v n) 0 1000
      (fun i hi => by simpa using hall i hi)
    constructor
    · unfold GetLambertianVector
      rw [this]
    · rw [this]

/-- Witness for the C8 amended characterisation: with an oracle accepting
    everything the sampler returns the very first draw, and with an oracle
    rejecting everything it returns the 1001st draw after 1001 draws. -/
theorem c8_amended_witness :
    GetLambertianVector envC1 (fun i => rv3 i 0 0) (rv3 0 0 1) 0 =
        rv3 0 0 0 ∧
      GetLambertianVector envC8 (fun i => rv3 i 0 0) (rv3 0 0 1) 0 =
        rv3 1000 0 0 := by
  constructor
  · have := c8_amended.1 envC1 (fun i => rv3 i 0 0) (rv3 0 0 1) 0 0
      (by omega) (fun i hi => absurd hi (Nat.not_lt_zero i)) rfl
    simpa using this
  · exact (c8_amended.2 envC8 (fun i => rv3 i 0 0) (rv3 0 0 1) 0
      (fun i _ => rfl)).1

/-- Environment of claim C2: only the anharmonic probability is nonzero and
    the draw selects decay; the lattice oracle rejects every direction, so
    every Lambertian draw fails its inward check; the two draw streams are
    constant.  Fields in order: specProb, diffuseProb, anharmonicProb,
    rand, inward, draws1, draws2, surfaceNormal, distanceToIn,
    memberKPerpV. -/
def envC2 : BoundaryEnv :=
  ⟨0, 0, 1, 0, fun _ _ _ => false, fun _ => rv3 1 0 0, fun _ => rv3 0 1 0,
    fun _ => rv3 0 0 1, fun _ _ => 0, zeroV⟩

/-- Claim C2 counterexample: in the decay branch the daughters receive
    Lambertian draws that never passed the inward check, and DoReflection
    returns them as an ordinary decay outcome, with no diagnostic and no
    track termination: the decay branch returns before the final
    re-validation that the specular and diffuse branches undergo. -/
theorem c2_counterexample :
    DoReflection envC2 (rv3 0 0 1) (rv3 0 0 1) 0 zeroV =
        Outcome.decayed (rv3 1 0 0) (rv3 0 1 0) ∧
      envC2.inward 0 (rv3 1 0 0) (rv3 0 0 1) = false ∧
      envC2.inward 0 (rv3 0 1 0) (rv3 0 0 1) = false := by
  refine ⟨?_, rfl, rfl⟩
  have hlam1 : GetLambertianVector envC2 envC2.draws1 (rv3 0 0 1) 0 =
      rv3 1 0 0 := by
    unfold GetLambertianVector
    rw [lambertRun_exhaust envC2.draws1
      (fun v => envC2.inward 0 v (rv3 0 0 1)) 0 1000 (fun i _ => rfl)]
    rfl
  have hlam2 : GetLambertianVector envC2 envC2.draws2 (rv3 0 0 1) 0 =
      rv3 0 1 0 := by
    unfold GetLambertianVector
    rw [lambertRun_exhaust envC2.draws2
      (fun v => envC2.inward 0 v (rv3 0 0 1)) 0 1000 (fun i _ => rfl)]
    rfl
  have hsel : selectBranch
      (envC2.anharmonicProb /
        (envC2.specProb + envC2.diffuseProb + envC2.anharmonicProb))
      (envC2.specProb /
        (envC2.specProb + envC2.diffuseProb + envC2.anharmonicProb))
      envC2.rand = .decay := by
    show selectBranch ((1 : ℝ) / (0 + 0 + 1)) ((0 : ℝ) / (0 + 0 + 1)) 0 =
      .decay
    unfold selectBranch
    rw [if_pos (by norm_num)]
  unfold DoReflection
  simp only [hsel, hlam1, hlam2]

/-- Claim C2 amended: the specular and the diffuse branch are handled
    uniformly, a failed final inward check against the collision normal
    yields a killed track carrying the reflection type and the mode of the
    diagnostic; the decay branch, however, returns its two
    Lambertian-assigned daughters directly, with no final inward
    re-validation and no termination path. -/
theorem c2_amended :
    ∀ (O : BoundaryEnv) (wv n : RV3) (mode : ℤ) (pos : RV3),
      (selectBranch
          (O.anharmonicProb / (O.specProb + O.diffuseProb + O.anharmonicProb))
          (O.specProb / (O.specProb + O.diffuseProb + O.anharmonicProb))
          O.rand = .specular →
        O.inward mode (GetReflectedVector O wv n mode pos) n = false →
        DoReflection O wv n mode pos = Outcome.killed .specular mode) ∧
      (selectBranch
          (O.anharmonicProb / (O.specProb + O.diffuseProb + O.anharmonicProb))
          (O.specProb / (O.specProb + O.diffuseProb + O.anharmonicProb))
          O.rand = .diffuse →
        O.inward mode (GetLambertianVector O O.draws1 n mode) n = false →
        DoReflection O wv n mode pos = Outcome.killed .diffuse mode) ∧
      (selectBranch
          (O.anharmonicProb / (O.specProb + O.diffuseProb + O.anharmonicProb))
          (O.specProb / (O.specProb + O.diffuseProb + O.anharmonicProb))
          O.rand = .decay →
        DoReflection O wv n mode pos =
          Outcome.decayed (GetLambertianVector O O.draws1 n mode)
            (GetLambertianVector O O.draws2 n mode)) := by
  intro O wv n mode pos
  refine ⟨?_, ?_, ?_⟩
  · intro hsel hfail
    unfold DoReflection
    simp only [hsel, hfail]
    simp
  · intro hsel hfail
    unfold DoReflection
    simp only [hsel, hfail]
    simp
  · intro hsel
    unfold DoReflection
    simp only [hsel]

/-- Environment for the witness of the C2 amended statement: the specular
    band is certain, the draw selects it, and the lattice oracle rejects
    everything, so the specular branch must end in a killed track. -/
def envC2a : BoundaryEnv :=
  ⟨1, 0, 0, 1 / 2, fun _ _ _ => false, fun _ => rv3 1 0 0, fun _ => rv3 1 0 0,
    fun _ => rv3 0 0 1, fun _ _ => 0, zeroV⟩

/-- Witness for the C2 amended statement: the specular conjunct applied to
    a concrete environment whose final inward check fails, every
    hypothesis discharged on the concrete values. -/
theorem c2_amended_witness :
    DoReflection envC2a (rv3 0 0 1) (rv3 0 0 1) 0 zeroV =
      Outcome.killed .specular 0 :=
  (c2_amended envC2a (rv3 0 0 1) (rv3 0 0 1) 0 zeroV).1
    (by
      show selectBranch ((0 : ℝ) / (1 + 0 + 0)) ((1 : ℝ) / (1 + 0 + 0))
        (1 / 2) = .specular
      unfold selectBranch
      rw [if_neg (by norm_num), if_pos (by norm_num)])
    rfl

/-- Helper: the squared magnitude of a vector whose squared magnitude is
    one is unchanged by unitV. -/
theorem unitV_of_normSq_one (v : RV3) (h : normSq v = 1) : unitV v = v := by
  unfold unitV magV
  rw [h, Real.sqrt_one]
  ext <;> simp [smulV]

/-- Helper: expansion of the squared magnitude of the naive reflection. -/
theorem normSq_reflect_expand (k n : RV3) :
    normSq (subV k (smulV (2 * dotV k n) n)) =
      normSq k - 4 * dotV k n ^ 2 + 4 * dotV k n ^ 2 * normSq n := by
  unfold normSq dotV subV smulV
  ring

/-- Helper: expansion of the normal component of the naive reflection. -/
theorem dot_reflect_expand (k n : RV3) :
    dotV (subV k (smulV (2 * dotV k n) n)) n =
      dotV k n - 2 * dotV k n * normSq n := by
  unfold normSq dotV subV smulV
  ring

/-- Claim C5: for unit incident wavevector and unit outward normal with
    nonnegative dot product, the Step 1 naive reflection of
    GetReflectedVector has magnitude one and its component along the
    normal is the negated incident component; and on the concrete incident
    wavevector (1,0,1), normalised internally, with normal (0,0,1) the
    Step 1 result equals the normalised (1,0,-1). -/
theorem c5_step_one :
    (∀ k n : RV3, normSq k = 1 → normSq n = 1 → 0 ≤ dotV k n →
      magV (stepOneReflect k n) = 1 ∧
      dotV (stepOneReflect k n) n = -dotV k n) ∧
    stepOneReflect (rv3 1 0 1) (rv3 0 0 1) = unitV (rv3 1 0 (-1)) := by
  constructor
  · intro k n hk hn hkn
    have hu : unitV k = k := unitV_of_normSq_one k hk
    have hr0 : normSq (subV k (smulV (2 * dotV k n) n)) = 1 := by
      rw [normSq_reflect_expand, hk, hn]
      ring
    have hstep : stepOneReflect k n = subV k (smulV (2 * dotV k n) n) := by
      unfold stepOneReflect
      simp only [hu]
      exact unitV_of_normSq_one _ hr0
    rw [hstep]
    constructor
    · unfold magV
      rw [hr0, Real.sqrt_one]
    · rw [dot_reflect_expand, hn]
      ring
  · have hs : Real.sqrt 2 * Real.sqrt 2 = 2 :=
      Real.mul_self_sqrt (by norm_num)
    have hspos : (0 : ℝ) < Real.sqrt 2 := Real.sqrt_pos.mpr (by norm_num)
    have hm1 : magV (rv3 1 0 1) = Real.sqrt 2 := by
      unfold magV normSq dotV rv3
      norm_num
    have hm2 : magV (rv3 1 0 (-1)) = Real.sqrt 2 := by
      unfold magV normSq dotV rv3
      norm_num
    have hr0 : subV (unitV (rv3 1 0 1))
        (smulV (2 * dotV (unitV (rv3 1 0 1)) (rv3 0 0 1)) (rv3 0 0 1)) =
        smulV (1 / Real.sqrt 2) (rv3 1 0 (-1)) := by
      unfold unitV
      rw [hm1]
      ext <;> simp only [subV, smulV, dotV, rv3] <;> ring
    have hone : normSq (smulV (1 / Real.sqrt 2) (rv3 1 0 (-1))) = 1 := by
      simp only [normSq, dotV, smulV, rv3]
      field_simp
    have hstep : stepOneReflect (rv3 1 0 1) (rv3 0 0 1) =
        smulV (1 / Real.sqrt 2) (rv3 1 0 (-1)) := by
      unfold stepOneReflect
      simp only [hr0]
      exact unitV_of_normSq_one _ hone
    rw [hstep]
    unfold unitV
    rw [hm2]

/-- Witness for C5: the general Step 1 property applied to the unit
    wavevector (1,0,0) and unit normal (0,0,1), whose dot product is zero,
    with every hypothesis discharged numerically. -/
theorem c5_step_one_witness :
    normSq (rv3 1 0 0) = 1 ∧ normSq (rv3 0 0 1) = 1 ∧
      0 ≤ dotV (rv3 1 0 0) (rv3 0 0 1) ∧
      magV (stepOneReflect (rv3 1 0 0) (rv3 0 0 1)) = 1 ∧
      dotV (stepOneReflect (rv3 1 0 0) (rv3 0 0 1)) (rv3 0 0 1) =
        -dotV (rv3 1 0 0) (rv3 0 0 1) := by
  refine ⟨by norm_num [normSq, dotV, rv3], by norm_num [normSq, dotV, rv3],
    by norm_num [dotV, rv3], ?_⟩
  exact c5_step_one.1 (rv3 1 0 0) (rv3 0 0 1)
    (by norm_num [normSq, dotV, rv3]) (by norm_num [normSq, dotV, rv3])
    (by norm_num [dotV, rv3])

/-- Helper: the dot product is additive in its left argument. -/
theorem dotV_addV_left (a b c : RV3) :
    dotV (addV a b) c = dotV a c + dotV b c := by
  unfold dotV addV
  ring

/-- Helper: the dot product commutes with scaling of its left argument. -/
theorem dotV_smulV_left (r : ℝ) (a c : RV3) :
    dotV (smulV r a) c = r * dotV a c := by
  unfold dotV smulV
  ring

/-- Environment of claim C7: an acute wedge solid bounded by the facet
    planes z = 0 (outward normal (0,0,1), the facet being walked) and
    3x - 4z = 0 (outward unit normal (3/5,0,-4/5), the overhanging
    neighbouring facet), meeting at the edge x = z = 0.  The normal query
    answers with the walked facet normal on the walked plane and with the
    neighbour normal below it; the distance query returns the ray
    parameter at which the ray crosses the neighbouring facet plane, which
    for the rays issued here is the honest entry distance into the wedge.
    The data member kPerpV holds the zero vector of a default constructed
    object.  Fields in order: specProb, diffuseProb, anharmonicProb, rand,
    inward, draws1, draws2, surfaceNormal, distanceToIn, memberKPerpV. -/
def envC7 : BoundaryEnv :=
  ⟨1, 0, 0, 1 / 2, fun _ _ _ => false, fun _ => rv3 1 0 0, fun _ => rv3 1 0 0,
    fun q => if q.z < 0 then rv3 (3 / 5) 0 (-(4 / 5)) else rv3 0 0 1,
    fun q u => (3 * q.x - 4 * q.z) / (4 * u.z - 3 * u.x), zeroV⟩

/-- Claim C7 counterexample: for the position (1/500, 0, 0), one walk step
    past the edge of the walked facet, and the unit candidate direction
    (4/5, 0, -3/5), the tangential pull back lands exactly on the
    neighbouring facet plane, below the edge, but the 1 mm outward
    restoration along the walked facet normal leaves the returned position
    at signed plane distance 4/5 mm from the neighbouring facet, nowhere
    near zero. -/
theorem c7_counterexample :
    |dotV (GetEdgePosition envC7 (rv3 (1 / 500) 0 0) (rv3 (4 / 5) 0 (-(3 / 5))))
        (rv3 (3 / 5) 0 (-(4 / 5)))| = 4 / 5 ∧
      dotV (GetEdgePullback envC7 (rv3 (1 / 500) 0 0) (rv3 (4 / 5) 0 (-(3 / 5))))
        (rv3 (3 / 5) 0 (-(4 / 5))) = 0 ∧
      (GetEdgePullback envC7 (rv3 (1 / 500) 0 0) (rv3 (4 / 5) 0 (-(3 / 5)))).z < 0 := by
  have hpb : GetEdgePullback envC7 (rv3 (1 / 500) 0 0)
      (rv3 (4 / 5) 0 (-(3 / 5))) = rv3 (-(1997 / 3000)) 0 (-(1997 / 4000)) := by
    unfold GetEdgePullback
    norm_num [envC7, dotV, subV, smulV, negV, rv3, zeroV]
  have hpos : GetEdgePosition envC7 (rv3 (1 / 500) 0 0)
      (rv3 (4 / 5) 0 (-(3 / 5))) = rv3 (-(1997 / 3000)) 0 (2003 / 4000) := by
    unfold GetEdgePosition
    rw [hpb]
    norm_num [envC7, addV, smulV, rv3]
  refine ⟨?_, ?_, ?_⟩
  · rw [hpos]
    norm_num [dotV, rv3]
  · rw [hpb]
    norm_num [dotV, rv3]
  · rw [hpb]
    norm_num [rv3]

/-- Claim C7 amended: whenever the tangential pull back point lies on the
    neighbouring facet plane, with unit normal m and offset b, the
    position returned by GetEdgePosition lies at plane distance equal to
    the 1 mm restoration step times the cosine between the walked facet
    normal and m; the claimed zero distance holds exactly when the two
    facet normals are perpendicular, and fails otherwise. -/
theorem c7_amended :
    ∀ (O : BoundaryEnv) (p wv m : RV3) (b : ℝ),
      dotV (GetEdgePullback O p wv) m = b →
      |dotV (GetEdgePosition O p wv) m - b| =
          |dotV (O.surfaceNormal p) m| ∧
        (dotV (O.surfaceNormal p) m = 0 →
          |dotV (GetEdgePosition O p wv) m - b| = 0) := by
  intro O p wv m b hpb
  have key : dotV (GetEdgePosition O p wv) m - b =
      dotV (O.surfaceNormal p) m := by
    unfold GetEdgePosition
    rw [dotV_addV_left, dotV_smulV_left, hpb]
    ring
  constructor
  · rw [key]
  · intro hperp
    rw [key, hperp, abs_zero]

/-- Witness for the C7 amended statement: the concrete wedge environment,
    where the pull back point lies on the neighbouring facet plane through
    the origin, gives a returned position at plane distance equal to the
    cosine between the two facet normals. -/
theorem c7_amended_witness :
    |dotV (GetEdgePosition envC7 (rv3 (1 / 500) 0 0)
        (rv3 (4 / 5) 0 (-(3 / 5)))) (rv3 (3 / 5) 0 (-(4 / 5))) - 0| =
      |dotV (envC7.surfaceNormal (rv3 (1 / 500) 0 0))
        (rv3 (3 / 5) 0 (-(4 / 5)))| :=
  (c7_amended envC7 (rv3 (1 / 500) 0 0) (rv3 (4 / 5) 0 (-(3 / 5)))
    (rv3 (3 / 5) 0 (-(4 / 5))) 0
    (by
      unfold GetEdgePullback
      norm_num [envC7, dotV, subV, smulV, negV, rv3, zeroV])).1

/-- Helper: squared magnitudes are nonnegative. -/
theorem normSq_nonneg (a : RV3) : 0 ≤ normSq a := by
  unfold normSq dotV
  nlinarith [mul_self_nonneg a.x, mul_self_nonneg a.y, mul_self_nonneg a.z]

/-- Helper: unitV of a vector of known squared magnitude scales by the
    reciprocal magnitude. -/
theorem unitV_eval (v : RV3) (c : ℝ) (hc : 0 < c) (h : normSq v = c ^ 2) :
    unitV v = smulV (1 / c) v := by
  unfold unitV magV
  rw [h, Real.sqrt_sq hc.le]

/-- Helper: a Rodrigues rotation by angle zero is the identity. -/
theorem rotateV_zero (v a : RV3) : rotateV v a 0 = v := by
  unfold rotateV
  simp only [Real.cos_zero, Real.sin_zero]
  ext <;> simp [addV, smulV, crossV, unitV]

/-- Helper: the cross product of a vector with itself vanishes. -/
theorem crossV_self (a : RV3) : crossV a a = rv3 0 0 0 := by
  unfold crossV rv3
  ext <;> simp <;> ring

/-- Helper: the signed azimuthal angle between a direction and itself is
    zero whenever its projection off the reference axis does not vanish. -/
theorem azimAngle_self (a ref : RV3) (h : normSq (perpPart a ref) ≠ 0) :
    azimAngle a a ref = 0 := by
  unfold azimAngle
  have hm : magV (perpPart a ref) * magV (perpPart a ref) =
      normSq (perpPart a ref) := Real.mul_self_sqrt (normSq_nonneg _)
  have h1 : dotV (perpPart a ref) (perpPart a ref) /
      (magV (perpPart a ref) * magV (perpPart a ref)) = 1 := by
    rw [hm]
    exact div_self h
  simp only [crossV_self, h1, Real.arccos_one]
  norm_num [dotV, rv3]

/-- Environment of claim C6: the surface normal is constant, so the walk
    stays on one facet plane and the tangential rotation angle is zero;
    the distance query answers 2 at the walked position (above the plane),
    which exceeds the edge threshold 1 and forces the edge branch, and 5/4
    at the 1 mm inward point used by the edge corrector.  Fields in order:
    specProb, diffuseProb, anharmonicProb, rand, inward, draws1, draws2,
    surfaceNormal, distanceToIn, memberKPerpV. -/
def envC6 : BoundaryEnv :=
  ⟨1, 0, 0, 1 / 2, fun _ _ _ => false, fun _ => rv3 1 0 0, fun _ => rv3 1 0 0,
    fun _ => rv3 0 0 1, fun q _ => if q.z < 0 then 5 / 4 else 2, zeroV⟩

/-- Loop state of claim C6: the decomposition of the unit candidate
    (3/5, 0, -4/5) against the normal (0,0,1), as the correction loop
    builds it from a failed Step 1 result. -/
def solverC6 : SolverState :=
  ⟨zeroV, rv3 (3 / 5) 0 0, rv3 0 0 (-(4 / 5)), -(4 / 5), rv3 0 0 1,
    rv3 (3 / 5) 0 (-(4 / 5))⟩

/-- Claim C6 counterexample: on an iteration that takes the edge branch,
    the corrected position from GetEdgePosition becomes the new state, but
    the direction from GetReflectionOnEdge does not: the iteration ends by
    overwriting the candidate with the recombination of the rotated
    tangential component and the perpendicular component, so the next
    inward check sees the recombined direction (3/5, 0, -4/5), not the
    edge reflected direction (3/5, 0, 4/5). -/
theorem c6_counterexample :
    envC6.distanceToIn
        (addV solverC6.pos (smulV (1 / 1000) (unitV solverC6.kTan)))
        (negV (envC6.surfaceNormal
          (addV solverC6.pos (smulV (1 / 1000) (unitV solverC6.kTan))))) > 1 ∧
      (loopBody envC6 solverC6).pos = rv3 (-(749 / 1000)) 0 1 ∧
      (loopBody envC6 solverC6).dKdir = rv3 (3 / 5) 0 (-(4 / 5)) ∧
      GetReflectionOnEdge envC6 ((loopBody envC6 solverC6).pos)
        solverC6.dKdir = rv3 (3 / 5) 0 (4 / 5) ∧
      (loopBody envC6 solverC6).dKdir ≠
        GetReflectionOnEdge envC6 ((loopBody envC6 solverC6).pos)
          solverC6.dKdir := by
  have hu : unitV (rv3 (3 / 5) 0 0) = rv3 1 0 0 := by
    rw [unitV_eval (rv3 (3 / 5) 0 0) (3 / 5) (by norm_num)
      (by norm_num [normSq, dotV, rv3])]
    ext <;> norm_num [smulV, rv3]
  have hpos1 : addV solverC6.pos (smulV (1 / 1000) (unitV solverC6.kTan)) =
      rv3 (1 / 1000) 0 0 := by
    simp only [solverC6]
    rw [hu]
    ext <;> norm_num [addV, smulV, zeroV, rv3]
  have hdist : envC6.distanceToIn (rv3 (1 / 1000) 0 0)
      (negV (rv3 0 0 1)) = 2 := by
    norm_num [envC6, negV, smulV, rv3]
  have haxis : unitV (crossV (rv3 0 0 (-(4 / 5))) (rv3 (3 / 5) 0 0)) =
      rv3 0 (-1) 0 := by
    have hc : crossV (rv3 0 0 (-(4 / 5))) (rv3 (3 / 5) 0 0) =
        rv3 0 (-(12 / 25)) 0 := by
      unfold crossV
      ext <;> norm_num [rv3]
    rw [hc, unitV_eval _ (12 / 25) (by norm_num)
      (by norm_num [normSq, dotV, rv3])]
    ext <;> norm_num [smulV, rv3]
  have hpp : perpPart (rv3 0 0 1) (rv3 0 (-1) 0) = rv3 0 0 1 := by
    unfold perpPart
    simp only [unitV_of_normSq_one (rv3 0 (-1) 0)
      (by norm_num [normSq, dotV, rv3])]
    ext <;> norm_num [subV, smulV, dotV, rv3]
  have hphi : azimAngle (rv3 0 0 1) (rv3 0 0 1) (rv3 0 (-1) 0) = 0 :=
    azimAngle_self _ _ (by rw [hpp]; norm_num [normSq, dotV, rv3])
  have hedgepos : GetEdgePosition envC6 (rv3 (1 / 1000) 0 0)
      (rv3 (3 / 5) 0 (-(4 / 5))) = rv3 (-(749 / 1000)) 0 1 := by
    unfold GetEdgePosition GetEdgePullback
    norm_num [envC6, dotV, subV, addV, smulV, negV, zeroV, rv3]
  have hbody : loopBody envC6 solverC6 =
      ⟨rv3 (-(749 / 1000)) 0 1, rv3 (3 / 5) 0 0, rv3 0 0 (-(4 / 5)),
        -(4 / 5), rv3 0 0 1, rv3 (3 / 5) 0 (-(4 / 5))⟩ := by
    unfold loopBody loopBodyGen
    simp only [hpos1]
    simp only [show envC6.surfaceNormal (rv3 (1 / 1000) 0 0) = rv3 0 0 1
      from rfl, hdist]
    rw [if_pos (by norm_num : (2 : ℝ) > 1)]
    simp only [solverC6, haxis, hphi, rotateV_zero, hedgepos]
    norm_num [smulV, addV, rv3]
  have hrefl : GetReflectionOnEdge envC6 (rv3 (-(749 / 1000)) 0 1)
      (rv3 (3 / 5) 0 (-(4 / 5))) = rv3 (3 / 5) 0 (4 / 5) := by
    unfold GetReflectionOnEdge
    have harg : subV (rv3 (3 / 5) 0 (-(4 / 5)))
        (smulV (2 * dotV (rv3 (3 / 5) 0 (-(4 / 5))) (rv3 0 0 1))
          (rv3 0 0 1)) = rv3 (3 / 5) 0 (4 / 5) := by
      ext <;> norm_num [subV, smulV, dotV, rv3]
    simp only [show envC6.surfaceNormal (rv3 (-(749 / 1000)) 0 1) =
      rv3 0 0 1 from rfl]
    simp only [show envC6.surfaceNormal (subV (rv3 (-(749 / 1000)) 0 1)
      (smulV 1 (rv3 0 0 1))) = rv3 0 0 1 from rfl]
    simp only [harg]
    exact unitV_of_normSq_one _ (by norm_num [normSq, dotV, rv3])
  refine ⟨?_, ?_, ?_, ?_, ?_⟩
  · rw [hpos1]
    simp only [show envC6.surfaceNormal (rv3 (1 / 1000) 0 0) = rv3 0 0 1
      from rfl, hdist]
    norm_num
  · rw [hbody]
  · rw [hbody]
  · rw [hbody]
    simp only [solverC6]
    exact hrefl
  · rw [hbody]
    simp only [solverC6]
    rw [hrefl]
    intro hcon
    have hz := congrArg RV3.z hcon
    simp only [rv3] at hz
    norm_num at hz

/-- Claim C6 amended: on an edge crossing the corrected position from the
    Edge Corrector does become the current state, but the edge reflected
    direction never does: the loop body is independent of the edge
    reflection routine altogether, because its assignment is overwritten
    by the tangential recombination before the next candidate and inward
    check are formed. -/
theorem c6_amended :
    (∀ (f g : BoundaryEnv → RV3 → RV3 → RV3) (O : BoundaryEnv)
      (s : SolverState), loopBodyGen f O s = loopBodyGen g O s) ∧
    (∀ (O : BoundaryEnv) (s : SolverState),
      O.distanceToIn (addV s.pos (smulV (1 / 1000) (unitV s.kTan)))
          (negV (O.surfaceNormal
            (addV s.pos (smulV (1 / 1000) (unitV s.kTan))))) > 1 →
      (loopBody O s).pos =
        GetEdgePosition O (addV s.pos (smulV (1 / 1000) (unitV s.kTan)))
          s.dKdir) := by
  constructor
  · intro f g O s
    by_cases h : O.distanceToIn (addV s.pos (smulV (1 / 1000) (unitV s.kTan)))
        (negV (O.surfaceNormal
          (addV s.pos (smulV (1 / 1000) (unitV s.kTan))))) > 1
    · simp only [loopBodyGen, if_pos h]
    · simp only [loopBodyGen, if_neg h]
  · intro O s h
    simp only [loopBody, loopBodyGen, if_pos h]

/-- Witness for the C6 amended statement: in the concrete edge-crossing
    environment the walked position exceeds the threshold and the body
    position is the Edge Corrector output. -/
theorem c6_amended_witness :
    (loopBody envC6 solverC6).pos =
      GetEdgePosition envC6
        (addV solverC6.pos (smulV (1 / 1000) (unitV solverC6.kTan)))
        solverC6.dKdir :=
  c6_amended.2 envC6 solverC6 (by
    have hu : unitV (rv3 (3 / 5) 0 0) = rv3 1 0 0 := by
      rw [unitV_eval (rv3 (3 / 5) 0 0) (3 / 5) (by norm_num)
        (by norm_num [normSq, dotV, rv3])]
      ext <;> norm_num [smulV, rv3]
    simp only [solverC6, hu]
    norm_num [envC6, addV, smulV, negV, zeroV, rv3])

/-- Helper: the correction loop returns the state unchanged, with no body
    executions, once the inward condition holds and fuel remains. -/
theorem reflLoop_stop {σ : Type} (inw : σ → Bool) (body : σ → σ) (s : σ)
    (fuel : ℕ) (h : inw s = true) (hf : 0 < fuel) :
    reflLoop inw body s fuel = (s, 0) := by
  cases fuel with
  | zero => omega
  | succ f => simp [reflLoop, h]

/-- Helper: one correction loop step when the inward condition fails. -/
theorem reflLoop_step {σ : Type} (inw : σ → Bool) (body : σ → σ) (s : σ)
    (fuel : ℕ) (h : inw s = false) :
    reflLoop inw body s (fuel + 1) =
      ((reflLoop inw body (body s) fuel).1,
        (reflLoop inw body (body s) fuel).2 + 1) := by
  simp [reflLoop, h]

/-- Environment of claim C10: the specular band is certain and selected;
    the lattice oracle deems a direction inward exactly when the normal it
    is checked against is the walked-to facet normal (1,0,0), never when
    it is the original collision normal (0,0,1); the solid reports the
    normal (1,0,0) at walked positions of positive x and a surface
    distance of 1/2, below the edge threshold.  Fields in order: specProb,
    diffuseProb, anharmonicProb, rand, inward, draws1, draws2,
    surfaceNormal, distanceToIn, memberKPerpV. -/
def envC10 : BoundaryEnv :=
  ⟨1, 0, 0, 1 / 2, fun _ _ nn => decide (nn.x = 1), fun _ => rv3 1 0 0,
    fun _ => rv3 1 0 0, fun q => if 0 < q.x then rv3 1 0 0 else rv3 0 0 1,
    fun _ _ => 1 / 2, zeroV⟩

/-- Loop state of claim C10: the decomposition of the failed Step 1 result
    (3/5, 0, -4/5) against the original normal (0,0,1), exactly the state
    GetReflectedVector builds before entering its correction loop. -/
def solverC10 : SolverState :=
  ⟨zeroV, rv3 (3 / 5) 0 0, rv3 0 0 (-(4 / 5)), -(4 / 5), rv3 0 0 1,
    rv3 (3 / 5) 0 (-(4 / 5))⟩

/-- Helper for C10: Step 1 on the incident wavevector (3/5, 0, 4/5) against
    the normal (0,0,1) gives (3/5, 0, -4/5). -/
theorem stepOne_c10 :
    stepOneReflect (rv3 (3 / 5) 0 (4 / 5)) (rv3 0 0 1) =
      rv3 (3 / 5) 0 (-(4 / 5)) := by
  unfold stepOneReflect
  simp only [unitV_of_normSq_one (rv3 (3 / 5) 0 (4 / 5))
    (by norm_num [normSq, dotV, rv3])]
  have harg : subV (rv3 (3 / 5) 0 (4 / 5))
      (smulV (2 * dotV (rv3 (3 / 5) 0 (4 / 5)) (rv3 0 0 1)) (rv3 0 0 1)) =
      rv3 (3 / 5) 0 (-(4 / 5)) := by
    ext <;> norm_num [subV, smulV, dotV, rv3]
  simp only [harg]
  exact unitV_of_normSq_one _ (by norm_num [normSq, dotV, rv3])

/-- Helper for C10: the signed azimuthal angle from the normal (0,0,1) to
    the normal (1,0,0) about the rotation axis (0,-1,0) is minus a
    quarter turn. -/
theorem azimAngle_c10 :
    azimAngle (rv3 0 0 1) (rv3 1 0 0) (rv3 0 (-1) 0) = -(Real.pi / 2) := by
  have hu : unitV (rv3 0 (-1) 0) = rv3 0 (-1) 0 :=
    unitV_of_normSq_one _ (by norm_num [normSq, dotV, rv3])
  have hpa : perpPart (rv3 0 0 1) (rv3 0 (-1) 0) = rv3 0 0 1 := by
    unfold perpPart
    simp only [hu]
    ext <;> norm_num [subV, smulV, dotV, rv3]
  have hpb : perpPart (rv3 1 0 0) (rv3 0 (-1) 0) = rv3 1 0 0 := by
    unfold perpPart
    simp only [hu]
    ext <;> norm_num [subV, smulV, dotV, rv3]
  have hm1 : magV (rv3 0 0 1) = 1 := by
    unfold magV
    rw [show normSq (rv3 0 0 1) = 1 by norm_num [normSq, dotV, rv3],
      Real.sqrt_one]
  have hm2 : magV (rv3 1 0 0) = 1 := by
    unfold magV
    rw [show normSq (rv3 1 0 0) = 1 by norm_num [normSq, dotV, rv3],
      Real.sqrt_one]
  have hdot : dotV (rv3 0 0 1) (rv3 1 0 0) = 0 := by
    norm_num [dotV, rv3]
  have hcr : crossV (rv3 0 0 1) (rv3 1 0 0) = rv3 0 1 0 := by
    unfold crossV
    ext <;> norm_num [rv3]
  have hsgn : dotV (rv3 0 1 0) (rv3 0 (-1) 0) = -1 := by
    norm_num [dotV, rv3]
  unfold azimAngle
  simp only [hpa, hpb, hm1, hm2, hdot, hcr, hu, hsgn]
  rw [if_pos (by norm_num)]
  norm_num [Real.arccos_zero]

/-- Helper for C10: rotating the tangential component (3/5, 0, 0) about
    the axis (0,-1,0) by minus a quarter turn gives (0, 0, -3/5). -/
theorem rotate_c10 :
    rotateV (rv3 (3 / 5) 0 0) (rv3 0 (-1) 0) (-(Real.pi / 2)) =
      rv3 0 0 (-(3 / 5)) := by
  unfold rotateV
  simp only [unitV_of_normSq_one (rv3 0 (-1) 0)
    (by norm_num [normSq, dotV, rv3]), Real.cos_neg, Real.cos_pi_div_two,
    Real.sin_neg, Real.sin_pi_div_two]
  ext <;> norm_num [addV, smulV, crossV, dotV, rv3]

/-- Helper for C10: one iteration of the correction loop from the starting
    state walks to positive x, re-evaluates the normal as (1,0,0), pulls
    back onto the surface, rotates the tangential component by the angle
    between the normals, and recombines to the candidate (-4/5, 0, -3/5). -/
theorem loopBody_c10 :
    loopBody envC10 solverC10 =
      ⟨rv3 (-(499 / 1000)) 0 0, rv3 0 0 (-(3 / 5)), rv3 (-(4 / 5)) 0 0,
        -(4 / 5), rv3 1 0 0, rv3 (-(4 / 5)) 0 (-(3 / 5))⟩ := by
  have hu : unitV (rv3 (3 / 5) 0 0) = rv3 1 0 0 := by
    rw [unitV_eval (rv3 (3 / 5) 0 0) (3 / 5) (by norm_num)
      (by norm_num [normSq, dotV, rv3])]
    ext <;> norm_num [smulV, rv3]
  have hpos1 : addV solverC10.pos (smulV (1 / 1000) (unitV solverC10.kTan)) =
      rv3 (1 / 1000) 0 0 := by
    simp only [solverC10]
    rw [hu]
    ext <;> norm_num [addV, smulV, zeroV, rv3]
  have hsn : envC10.surfaceNormal (rv3 (1 / 1000) 0 0) = rv3 1 0 0 := by
    norm_num [envC10, rv3]
  have haxis : unitV (crossV (rv3 0 0 (-(4 / 5))) (rv3 (3 / 5) 0 0)) =
      rv3 0 (-1) 0 := by
    have hc : crossV (rv3 0 0 (-(4 / 5))) (rv3 (3 / 5) 0 0) =
        rv3 0 (-(12 / 25)) 0 := by
      unfold crossV
      ext <;> norm_num [rv3]
    rw [hc, unitV_eval _ (12 / 25) (by norm_num)
      (by norm_num [normSq, dotV, rv3])]
    ext <;> norm_num [smulV, rv3]
  unfold loopBody loopBodyGen
  simp only [hpos1, hsn]
  rw [if_neg (by norm_num [envC10] :
    ¬envC10.distanceToIn (rv3 (1 / 1000) 0 0) (negV (rv3 1 0 0)) > 1)]
  simp only [solverC10, haxis, azimAngle_c10, rotate_c10]
  norm_num [envC10, subV, smulV, addV, negV, rv3]

/-- Helper for C10: the full specular solver run on the incident
    wavevector (3/5, 0, 4/5): Step 1 fails the inward check against the
    collision normal, the loop runs one iteration, and the loop accepts
    the candidate (-4/5, 0, -3/5) against the walked-to facet normal
    (1,0,0). -/
theorem getReflected_c10 :
    GetReflectedVector envC10 (rv3 (3 / 5) 0 (4 / 5)) (rv3 0 0 1) 0 zeroV =
      rv3 (-(4 / 5)) 0 (-(3 / 5)) := by
  have hf0 : envC10.inward 0 (rv3 (3 / 5) 0 (-(4 / 5))) (rv3 0 0 1) =
      false := decide_eq_false (by norm_num [rv3])
  have hkpm : dotV (rv3 (3 / 5) 0 (-(4 / 5))) (rv3 0 0 1) = -(4 / 5) := by
    norm_num [dotV, rv3]
  have hkpv : smulV (-(4 / 5)) (rv3 0 0 1) = rv3 0 0 (-(4 / 5)) := by
    ext <;> norm_num [smulV, rv3]
  have hktan : subV (rv3 (3 / 5) 0 (-(4 / 5))) (rv3 0 0 (-(4 / 5))) =
      rv3 (3 / 5) 0 0 := by
    ext <;> norm_num [subV, rv3]
  have hc0 : (fun s : SolverState => envC10.inward 0 s.dKdir s.newNorm)
      solverC10 = false := decide_eq_false (by norm_num [solverC10, rv3])
  have hc1 : (fun s : SolverState => envC10.inward 0 s.dKdir s.newNorm)
      (⟨rv3 (-(499 / 1000)) 0 0, rv3 0 0 (-(3 / 5)), rv3 (-(4 / 5)) 0 0,
        -(4 / 5), rv3 1 0 0, rv3 (-(4 / 5)) 0 (-(3 / 5))⟩ : SolverState) =
      true := decide_eq_true (by norm_num [rv3])
  unfold GetReflectedVector
  simp only [stepOne_c10, hf0, Bool.false_eq_true, if_false, hkpm, hkpv,
    hktan]
  rw [show (⟨zeroV, rv3 (3 / 5) 0 0, rv3 0 0 (-(4 / 5)), -(4 / 5),
    rv3 0 0 1, rv3 (3 / 5) 0 (-(4 / 5))⟩ : SolverState) = solverC10
    from rfl]
  rw [show (1000 : ℕ) = 999 + 1 from rfl,
    reflLoop_step (fun s : SolverState => envC10.inward 0 s.dKdir s.newNorm)
      (loopBody envC10) solverC10 999 hc0, loopBody_c10,
    reflLoop_stop (fun s : SolverState => envC10.inward 0 s.dKdir s.newNorm)
      (loopBody envC10)
      (⟨rv3 (-(499 / 1000)) 0 0, rv3 0 0 (-(3 / 5)), rv3 (-(4 / 5)) 0 0,
        -(4 / 5), rv3 1 0 0, rv3 (-(4 / 5)) 0 (-(3 / 5))⟩ : SolverState)
      999 hc1 (by omega)]

/-- Claim C10: in the specular branch the final re-validation of
    DoReflection is performed against the original collision normal: for
    every environment in which the specular band is selected, the outcome
    is a killed specular track exactly when the lattice oracle rejects the
    solver result against that original normal.  Consequently, in the
    exhibited environment the correction loop accepts its candidate
    against the walked-to facet normal (1,0,0), yet the final check
    against the original normal (0,0,1) fails and the track is killed. -/
theorem c10_final_check_normal :
    (∀ (O : BoundaryEnv) (wv n : RV3) (mode : ℤ) (pos : RV3),
      selectBranch
          (O.anharmonicProb / (O.specProb + O.diffuseProb + O.anharmonicProb))
          (O.specProb / (O.specProb + O.diffuseProb + O.anharmonicProb))
          O.rand = .specular →
        (DoReflection O wv n mode pos = Outcome.killed .specular mode ↔
          O.inward mode (GetReflectedVector O wv n mode pos) n = false)) ∧
      (GetReflectedVector envC10 (rv3 (3 / 5) 0 (4 / 5)) (rv3 0 0 1) 0
          zeroV = rv3 (-(4 / 5)) 0 (-(3 / 5)) ∧
        envC10.inward 0 (rv3 (-(4 / 5)) 0 (-(3 / 5))) (rv3 1 0 0) = true ∧
        envC10.inward 0 (rv3 (-(4 / 5)) 0 (-(3 / 5))) (rv3 0 0 1) = false ∧
        DoReflection envC10 (rv3 (3 / 5) 0 (4 / 5)) (rv3 0 0 1) 0 zeroV =
          Outcome.killed .specular 0) := by
  constructor
  · intro O wv n mode pos hsel
    unfold DoReflection
    simp only [hsel]
    by_cases h : O.inward mode (GetReflectedVector O wv n mode pos) n = true
    · simp [h]
    · have h2 : O.inward mode (GetReflectedVector O wv n mode pos) n =
          false := by
        cases hx : O.inward mode (GetReflectedVector O wv n mode pos) n
        · rfl
        · exact absurd hx h
      simp [h2]
  · have hsel : selectBranch
        (envC10.anharmonicProb /
          (envC10.specProb + envC10.diffuseProb + envC10.anharmonicProb))
        (envC10.specProb /
          (envC10.specProb + envC10.diffuseProb + envC10.anharmonicProb))
        envC10.rand = .specular := by
      show selectBranch ((0 : ℝ) / (1 + 0 + 0)) ((1 : ℝ) / (1 + 0 + 0))
        (1 / 2) = .specular
      unfold selectBranch
      rw [if_neg (by norm_num), if_pos (by norm_num)]
    have hkill : envC10.inward 0 (rv3 (-(4 / 5)) 0 (-(3 / 5)))
        (rv3 0 0 1) = false := decide_eq_false (by norm_num [rv3])
    refine ⟨getReflected_c10, decide_eq_true (by norm_num [rv3]), hkill, ?_⟩
    unfold DoReflection
    simp only [hsel, getReflected_c10, hkill, Bool.false_eq_true, if_false]

/-- Witness for C10: the general re-validation characterisation applied to
    the concrete environment, with the specular band hypothesis discharged
    numerically. -/
theorem c10_final_check_normal_witness :
    DoReflection envC10 (rv3 (3 / 5) 0 (4 / 5)) (rv3 0 0 1) 0 zeroV =
        Outcome.killed .specular 0 ↔
      envC10.inward 0
        (GetReflectedVector envC10 (rv3 (3 / 5) 0 (4 / 5)) (rv3 0 0 1) 0
          zeroV) (rv3 0 0 1) = false :=
  c10_final_check_normal.1 envC10 (rv3 (3 / 5) 0 (4 / 5)) (rv3 0 0 1) 0
    zeroV (by
      show selectBranch ((0 : ℝ) / (1 + 0 + 0)) ((1 : ℝ) / (1 + 0 + 0))
        (1 / 2) = .specular
      unfold selectBranch
      rw [if_neg (by norm_num), if_pos (by norm_num)])

end
